import Mathlib

/-!
Shallow embedding of the pgx-v5-pool-examples repository (package pgx_demo
plus its two main-program variants).  The repository is glue code around the
pgx / pgxpool library: it builds a pool configuration, installs connection
hooks that prepare a fixed set of named statements, and runs demonstration
operations (user upsert in a transaction, lazy account creation, balance
read, NULL-safe type samples, Postgres error inspection) against a small
three-table schema.

The database visible to the program is modelled as an explicit state value;
each exported Go function becomes a Lean function from state (and, where the
real code can fail for environmental reasons, a failure oracle) to a result
paired with the next state.  pgtype wrapper values are modelled as the Go
structs are laid out: a scalar payload plus a `valid` flag, where
`valid = false` means SQL NULL.
-/

namespace PgxDemo

/-! ### pgtype value models (scalar payload + Valid flag, as in Go) -/

/-- Model of `pgtype.Text`: a string payload plus a Valid flag. -/
structure PgText where
  string : String
  valid : Bool
deriving DecidableEq, Repr, Inhabited

/-- Model of `pgtype.Bool`. -/
structure PgBool where
  bool : Bool
  valid : Bool
deriving DecidableEq, Repr, Inhabited

/-- Model of `pgtype.Int2` (payload `Int16` modelled as `Int`). -/
structure PgInt2 where
  int16 : Int
  valid : Bool
deriving DecidableEq, Repr, Inhabited

/-- Model of `pgtype.Int4` (payload `Int32` modelled as `Int`). -/
structure PgInt4 where
  int32 : Int
  valid : Bool
deriving DecidableEq, Repr, Inhabited

/-- Model of `pgtype.Int8` (payload `Int64` modelled as `Int`). -/
structure PgInt8 where
  int64 : Int
  valid : Bool
deriving DecidableEq, Repr, Inhabited

/-- Model of `pgtype.UUID` (the 16-byte payload abstracted to a `Nat`). -/
structure PgUUID where
  bytes : Nat
  valid : Bool
deriving DecidableEq, Repr, Inhabited

/-- Model of `pgtype.Numeric`: arbitrary-precision integer mantissa `int`,
decimal exponent `exp`, NaN flag, and the Valid flag.  (The
InfinityModifier field is never touched by this repository and is
omitted.) -/
structure PgNumeric where
  int : Int
  exp : Int
  nan : Bool
  valid : Bool
deriving DecidableEq, Repr, Inhabited

/-- Model of `pgtype.Timestamp`: the time payload is an `Int` count of
nanoseconds since some epoch (Go `time.Time` carries nanosecond
precision). -/
structure PgTimestamp where
  time : Int
  valid : Bool
deriving DecidableEq, Repr, Inhabited

/-! ### Rows and database state -/

/-- One row of `app_users`:
`id BIGSERIAL PRIMARY KEY, email TEXT UNIQUE NOT NULL, name TEXT NOT NULL,
middle_name TEXT, last_login TIMESTAMPTZ, is_active BOOLEAN NOT NULL
DEFAULT TRUE`. -/
structure UserRow where
  id : Int
  email : String
  name : String
  middleName : PgText
  lastLogin : PgTimestamp
  isActive : Bool
deriving DecidableEq, Repr

/-- What a `NUMERIC(12,2)` cell can hold: NaN, or an integer multiple of
0.01 represented by its count of hundredths (the column's scale-2
value). -/
inductive NumCell where
  | nan
  | val (cents : Int)
deriving DecidableEq, Repr

/-- One stored row of `type_samples` (without its id): every data column is
nullable, so each column is an `Option` of its payload; `none` is SQL
NULL.  The `num` column is a `NUMERIC(12,2)` cell (scale-2 value or NaN);
the `ts` column is a `TIMESTAMPTZ` value, a count of microseconds
(Postgres timestamp precision). -/
structure StoredSample where
  uid : Option Nat
  i2 : Option Int
  i4 : Option Int
  i8 : Option Int
  flag : Option Bool
  note : Option String
  num : Option NumCell
  ts : Option Int
deriving DecidableEq, Repr

/-- The database state the demonstration program can observe: the row data
of the three tables, the two BIGSERIAL counters, and the value the server
clock `now()` would return. -/
structure DB where
  users : List UserRow
  nextUserId : Int
  /-- `accounts`: association list user_id ↦ balance.  The column is
  NUMERIC(12,2) NOT NULL, but the model keeps the full `PgNumeric` so that
  the NULL-checking branch of `GetBalance` is part of the model. -/
  accounts : List (Int × PgNumeric)
  typeSamples : List (Int × StoredSample)
  nextSampleId : Int
  now : Int
deriving DecidableEq, Repr

/-! ### Schema DDL (BootstrapEnsureSchema / EnsureSchema, both variants)

`CREATE TABLE IF NOT EXISTS t (...)` only ever observes and changes the set
of existing table names, so the schema-creating functions are modelled on a
state that is the list of table names already present. -/

/-- Semantics of one `CREATE TABLE IF NOT EXISTS name (...)` statement on
the set of existing table names: add the name unless it is already
present. -/
def createTableIfNotExists (name : String) (tables : List String) : List String :=
  if name ∈ tables then tables else tables ++ [name]

/-- Run a DDL list in order, as the `for _, q := range ddl` loops do. -/
def runDDL (ddl : List String) (tables : List String) : List String :=
  ddl.foldl (fun st n => createTableIfNotExists n st) tables

/-- Table names created by `BootstrapEnsureSchema` in the unnamed source
file (three CREATE TABLE IF NOT EXISTS statements, in source order). -/
def bootstrapDDLTables : List String :=
  ["app_users", "accounts", "type_samples"]

/-- Table names created by `EnsureSchema` in the unnamed source file. -/
def ensureSchemaDDLTables : List String :=
  ["app_users", "accounts", "type_samples"]

/-- Table names created by `BootstrapEnsureSchema` in the
`pgx_demo/pgx_demo.go` variant: only two statements, no `type_samples`. -/
def bootstrapDDLTablesV2 : List String :=
  ["app_users", "accounts"]

/-- Table names created by `EnsureSchema` in the `pgx_demo/pgx_demo.go`
variant: only two statements, no `type_samples`. -/
def ensureSchemaDDLTablesV2 : List String :=
  ["app_users", "accounts"]

/-- Effect of `BootstrapEnsureSchema` (unnamed file) on the table-name
state. -/
def bootstrapEnsureSchema (tables : List String) : List String :=
  runDDL bootstrapDDLTables tables

/-- Effect of `EnsureSchema` (unnamed file) on the table-name state. -/
def ensureSchema (tables : List String) : List String :=
  runDDL ensureSchemaDDLTables tables

/-- Effect of `BootstrapEnsureSchema` (pgx_demo.go variant). -/
def bootstrapEnsureSchemaV2 (tables : List String) : List String :=
  runDDL bootstrapDDLTablesV2 tables

/-- Effect of `EnsureSchema` (pgx_demo.go variant). -/
def ensureSchemaV2 (tables : List String) : List String :=
  runDDL ensureSchemaDDLTablesV2 tables

/-! ### Connection state, hooks, prepared statements (BuildPool internals) -/

/-- The per-connection state this repository can affect: the session
`application_name` setting and the named prepared statements registered on
the connection (name ↦ SQL text, in registration order). -/
structure ConnState where
  appName : Option String
  prepared : List (String × String)
deriving DecidableEq, Repr

/-- The nine named prepared statements the `AfterConnect` hook of the
unnamed source file registers, as (name, SQL) pairs in source order. -/
def preparedStatements : List (String × String) :=
  [("ps_insert_user",
    "INSERT INTO app_users(email, name, middle_name) VALUES ($1,$2,$3) ON CONFLICT (email) DO UPDATE SET name = EXCLUDED.name RETURNING id"),
   ("ps_set_last_login",
    "UPDATE app_users SET last_login = now() WHERE id = $1"),
   ("ps_get_user_by_email",
    "SELECT id, email, name, middle_name, last_login, is_active FROM app_users WHERE email = $1"),
   ("ps_ensure_account",
    "INSERT INTO accounts(user_id, balance) VALUES ($1, 0) ON CONFLICT (user_id) DO NOTHING"),
   ("ps_get_balance",
    "SELECT balance FROM accounts WHERE user_id = $1"),
   ("ps_select_users_light",
    "SELECT id, email, name FROM app_users ORDER BY id LIMIT 5"),
   ("ps_get_user_id_by_email",
    "SELECT id FROM app_users WHERE email = $1"),
   ("ps_insert_type_sample",
    "INSERT INTO type_samples(uid, i2, i4, i8, flag, note, num, ts) VALUES ($1,$2,$3,$4,$5,$6,$7,$8) RETURNING id"),
   ("ps_get_type_sample",
    "SELECT uid, i2, i4, i8, flag, note, num, ts FROM type_samples WHERE id = $1")]

/-- Statement names that the exported operations of the unnamed source file
invoke by name: `UpsertUserAndLogLogin` (ps_insert_user, ps_set_last_login),
`EnsureAccount`, `GetBalance`, `DemoScanWithPgtype` (ps_get_user_by_email),
`ShowQueryMetadata` and `TxQueryExample` (ps_select_users_light),
`InsertTypeSample`, `GetTypeSample`. -/
def invokedStatementNames : List String :=
  ["ps_insert_user", "ps_set_last_login", "ps_ensure_account",
   "ps_get_balance", "ps_get_user_by_email", "ps_select_users_light",
   "ps_insert_type_sample", "ps_get_type_sample"]

/-- Run the sequence of `conn.Prepare` calls from step index `i`, where the
oracle `ok` says which library calls succeed (a `false` models a failed
Prepare; the hook then returns that error at once). -/
def prepareAll (ok : Nat → Bool) : Nat → List (String × String) → ConnState → Except String ConnState
  | _, [], c => .ok c
  | i, (name, sql) :: rest, c =>
    if ok i then
      prepareAll ok (i + 1) rest { c with prepared := c.prepared ++ [(name, sql)] }
    else
      .error ("prepare failed: " ++ name)

/-- The `AfterConnect` hook of `BuildPool` (unnamed source file): first an
Exec setting `application_name`, then the nine Prepares in order; the first
failing library call aborts the hook with its error. -/
def afterConnect (ok : Nat → Bool) (c : ConnState) : Except String ConnState :=
  if ok 0 then
    prepareAll ok 1 preparedStatements { c with appName := some "pgxpool-demo" }
  else
    .error "exec set application_name failed"

/-- The `BeforeAcquire` hook of `BuildPool`: ignores the context and the
connection and returns true (the connection is acceptable). -/
def beforeAcquire (_ctxCancelled : Bool) (_c : ConnState) : Bool :=
  true

/-- The `AfterRelease` hook of `BuildPool`: ignores the connection and
returns true (keep the connection in the pool). -/
def afterRelease (_c : ConnState) : Bool :=
  true

/-- Go `time.Minute` in nanoseconds (Go `time.Duration` is an int64
nanosecond count). -/
def goMinute : Int := 60 * 1000000000

/-- The pool configuration fields this repository touches.  Durations are
nanosecond counts as in Go. -/
structure PoolConfig where
  maxConns : Int
  minConns : Int
  maxConnLifetime : Int
  maxConnIdleTime : Int
  healthCheckPeriod : Int
  afterConnectHook : Option (ConnState → Except String ConnState)
  beforeAcquireHook : Option (Bool → ConnState → Bool)
  afterReleaseHook : Option (ConnState → Bool)

/-- The mutation `BuildPool` performs on the configuration returned by
`ParseConfig` before handing it to `NewWithConfig`: fixed pool limits and
periods, and the three hooks.  `ok` is the library-call oracle threaded
into the installed `AfterConnect` hook. -/
def buildPoolConfig (ok : Nat → Bool) (cfg : PoolConfig) : PoolConfig :=
  { cfg with
    maxConns := 10
    minConns := 2
    maxConnLifetime := 30 * goMinute
    maxConnIdleTime := 5 * goMinute
    healthCheckPeriod := goMinute
    afterConnectHook := some (afterConnect ok)
    beforeAcquireHook := some beforeAcquire
    afterReleaseHook := some (afterRelease) }

/-- `BuildPool` on the outcome of `ParseConfig`: a parse error is returned
(wrapped), otherwise the tuned configuration is built. -/
def buildPool (ok : Nat → Bool) (parsed : Except String PoolConfig) : Except String PoolConfig :=
  match parsed with
  | .error e => .error ("ParseConfig: " ++ e)
  | .ok cfg => .ok (buildPoolConfig ok cfg)

/-! ### User upsert and login transaction (UpsertUserAndLogLogin) -/

/-- A freshly inserted `app_users` row: serial id, NULL last_login, and the
column default `is_active = TRUE`. -/
def newUser (id : Int) (email name : String) (mid : PgText) : UserRow :=
  { id := id, email := email, name := name, middleName := mid,
    lastLogin := { time := 0, valid := false }, isActive := true }

/-- Semantics of the prepared statement `ps_insert_user`:
`INSERT INTO app_users(email, name, middle_name) VALUES ($1,$2,$3)
ON CONFLICT (email) DO UPDATE SET name = EXCLUDED.name RETURNING id`.
On conflict only `name` is updated (middle_name, last_login, is_active are
left as they are); otherwise a fresh row is inserted with the next serial
id, NULL last_login and the default `is_active = TRUE`. -/
def insertUserUpsert (email name : String) (mid : PgText) (db : DB) : Int × DB :=
  match db.users.find? (fun u => u.email == email) with
  | some u =>
    (u.id,
     { db with
       users := db.users.map (fun v => if v.email == email then { v with name := name } else v) })
  | none =>
    (db.nextUserId,
     { db with
       users := db.users ++ [newUser db.nextUserId email name mid]
       nextUserId := db.nextUserId + 1 })

/-- Semantics of the prepared statement `ps_set_last_login`:
`UPDATE app_users SET last_login = now() WHERE id = $1`. -/
def setLastLogin (uid : Int) (db : DB) : DB :=
  { db with
    users := db.users.map (fun v =>
      if v.id == uid then { v with lastLogin := { time := db.now, valid := true } } else v) }

/-- The library calls of `UpsertUserAndLogLogin` that can fail for
environmental reasons, in order. -/
inductive TxStep where
  | begin
  | upsert
  | setLogin
  | commit
deriving DecidableEq, Repr

/-- How `UpsertUserAndLogLogin` turns its `*string` middle-name argument
into a `pgtype.Text`: a nil pointer becomes `Valid = false` (NULL). -/
def encodeMiddle : Option String → PgText
  | some m => { string := m, valid := true }
  | none => { string := "", valid := false }

/-- `UpsertUserAndLogLogin`: Begin, upsert via `ps_insert_user` scanning the
returned id, `ps_set_last_login`, Commit, with `defer tx.Rollback` and an
early return on every error.  `fail s = true` means library call `s`
fails.  Because every statement runs inside the transaction and each error
path rolls back, an error leaves the state as it was; only Commit installs
the two effects. -/
def upsertUserAndLogLogin (fail : TxStep → Bool) (email name : String)
    (middleName : Option String) (db : DB) : Except String Int × DB :=
  if fail .begin then (.error "begin failed", db)
  else
    let mid : PgText := encodeMiddle middleName
    if fail .upsert then (.error "upsert failed", db)
    else
      let r := insertUserUpsert email name mid db
      if fail .setLogin then (.error "set last_login failed", db)
      else
        let db2 := setLastLogin r.1 r.2
        if fail .commit then (.error "commit failed", db)
        else (.ok r.1, db2)

/-! ### Accounts (EnsureAccount / GetBalance) -/

/-- NUMERIC literal `0` as stored by `ps_ensure_account`. -/
def numericZero : PgNumeric :=
  { int := 0, exp := 0, nan := false, valid := true }

/-- The Go zero value `pgtype.Numeric{}` returned alongside every error of
`GetBalance`. -/
def numericGoZero : PgNumeric :=
  { int := 0, exp := 0, nan := false, valid := false }

/-- `EnsureAccount`, i.e. the prepared statement `ps_ensure_account`:
`INSERT INTO accounts(user_id, balance) VALUES ($1, 0) ON CONFLICT
(user_id) DO NOTHING`.  If an account row exists the insert is skipped;
otherwise the insert is attempted and the foreign key
`user_id REFERENCES app_users(id)` must hold, else the statement errors. -/
def ensureAccount (uid : Int) (db : DB) : Except String Unit × DB :=
  match db.accounts.find? (fun a => a.1 == uid) with
  | some _ => (.ok (), db)
  | none =>
    if (db.users.find? (fun u => u.id == uid)).isSome then
      (.ok (), { db with accounts := db.accounts ++ [(uid, numericZero)] })
    else
      (.error "foreign key violation on accounts.user_id", db)

/-- `GetBalance`: QueryRow on `ps_get_balance` scanned into a
`pgtype.Numeric`.  A missing row is a scan error; a scanned value with
`Valid = false` is turned into an explicit error; both error paths return
the zero `pgtype.Numeric{}`.  The result mirrors Go's
`(pgtype.Numeric, error)` pair, `none` meaning a nil error. -/
def getBalance (uid : Int) (db : DB) : PgNumeric × Option String :=
  match db.accounts.find? (fun a => a.1 == uid) with
  | none => (numericGoZero, some "no rows in result set")
  | some a =>
    if a.2.valid then (a.2, none)
    else (numericGoZero, some "balance is NULL")

/-! ### Type samples (InsertTypeSample / GetTypeSample) -/

/-- The Go struct `TypeSample`: eight pgtype fields. -/
structure TypeSample where
  uuid : PgUUID
  i2 : PgInt2
  i4 : PgInt4
  i8 : PgInt8
  flag : PgBool
  note : PgText
  num : PgNumeric
  ts : PgTimestamp
deriving DecidableEq, Repr

/-- Round `m / 10^k` (k ≥ 1) to the nearest integer with ties away from
zero, as Postgres rounds numeric values to a column's scale. -/
def roundDiv10 (m : Int) (k : Nat) : Int :=
  m.sign * (((m.natAbs + 10 ^ k / 2) / 10 ^ k : Nat) : Int)

/-- The count of hundredths a `NUMERIC(12,2)` column stores for a
non-NaN `pgtype.Numeric` payload `int · 10^exp`: the value times 100,
rounded half away from zero to an integer. -/
def roundCents (int exp : Int) : Int :=
  if 0 ≤ exp + 2 then int * (10 : Int) ^ (exp + 2).toNat
  else roundDiv10 int (-(exp + 2)).toNat

/-- `NUMERIC(12,2)` overflow: more than 10 digits before the decimal
point (|value| ≥ 10^10, i.e. |cents| ≥ 10^12) makes the INSERT fail with
a numeric-field-overflow error instead of storing a rounded value. -/
def numericFieldOverflow (n : PgNumeric) : Bool :=
  n.valid && !n.nan && decide (10 ^ 12 ≤ (roundCents n.int n.exp).natAbs)

/-- How `ps_insert_type_sample` encodes the pgtype arguments into the
nullable columns: `Valid = false` writes NULL, `Valid = true` writes the
payload — with the `num` column rounding the value to its
`NUMERIC(12,2)` scale (NaN is stored as NaN) and the `ts` column keeping
microsecond precision, dropping the sub-microsecond part of the Go
nanosecond time. -/
def encodeSample (s : TypeSample) : StoredSample :=
  { uid := if s.uuid.valid then some s.uuid.bytes else none
    i2 := if s.i2.valid then some s.i2.int16 else none
    i4 := if s.i4.valid then some s.i4.int32 else none
    i8 := if s.i8.valid then some s.i8.int64 else none
    flag := if s.flag.valid then some s.flag.bool else none
    note := if s.note.valid then some s.note.string else none
    num :=
      if s.num.valid then
        some (if s.num.nan then NumCell.nan else NumCell.val (roundCents s.num.int s.num.exp))
      else none
    ts := if s.ts.valid then some (s.ts.time.ediv 1000) else none }

/-- How scanning a row of `type_samples` into pgtype destinations decodes
the nullable columns: NULL yields the zero payload with `Valid = false`,
a value yields it with `Valid = true`.  A stored scale-2 numeric cell is
read back with mantissa = its count of hundredths and exponent −2 (the
codec's exact mantissa/exponent normalisation is representation detail of
the external library; the value is what the column determines); NaN reads
back as a valid NaN.  A stored microsecond timestamp reads back as
nanoseconds. -/
def decodeSample (r : StoredSample) : TypeSample :=
  { uuid := match r.uid with
      | some b => { bytes := b, valid := true }
      | none => { bytes := 0, valid := false }
    i2 := match r.i2 with
      | some v => { int16 := v, valid := true }
      | none => { int16 := 0, valid := false }
    i4 := match r.i4 with
      | some v => { int32 := v, valid := true }
      | none => { int32 := 0, valid := false }
    i8 := match r.i8 with
      | some v => { int64 := v, valid := true }
      | none => { int64 := 0, valid := false }
    flag := match r.flag with
      | some v => { bool := v, valid := true }
      | none => { bool := false, valid := false }
    note := match r.note with
      | some v => { string := v, valid := true }
      | none => { string := "", valid := false }
    num := match r.num with
      | some NumCell.nan => { int := 0, exp := 0, nan := true, valid := true }
      | some (NumCell.val c) => { int := c, exp := -2, nan := false, valid := true }
      | none => { int := 0, exp := 0, nan := false, valid := false }
    ts := match r.ts with
      | some v => { time := v * 1000, valid := true }
      | none => { time := 0, valid := false } }

/-- `InsertTypeSample`: QueryRow on `ps_insert_type_sample` with the eight
pgtype arguments, scanning the returned serial id; a `num` payload that
overflows `NUMERIC(12,2)` fails the statement. -/
def insertTypeSample (s : TypeSample) (db : DB) : Except String (Int × DB) :=
  if numericFieldOverflow s.num then .error "numeric field overflow"
  else
    .ok (db.nextSampleId,
      { db with
        typeSamples := db.typeSamples ++ [(db.nextSampleId, encodeSample s)]
        nextSampleId := db.nextSampleId + 1 })

/-- `GetTypeSample`: QueryRow on `ps_get_type_sample` scanning the eight
columns into a fresh `TypeSample`; a missing row is a scan error. -/
def getTypeSample (id : Int) (db : DB) : Except String TypeSample :=
  match db.typeSamples.find? (fun r => r.1 == id) with
  | some r => .ok (decodeSample r.2)
  | none => .error "no rows in result set"

/-- Relation between a written `TypeSample` and the value read back, up to
the declared column precision: every field keeps its Valid flag; the six
columns without a precision modifier return the exact payload; the
`NUMERIC(12,2)` column returns the written value rounded to hundredths
(read back at exponent −2), NaN kept, and returns the written payload
verbatim when it was already expressed at exponent −2; the `TIMESTAMPTZ`
column returns the written nanosecond time truncated to microseconds,
verbatim when it had no sub-microsecond part. -/
def roundTripEquiv (s out : TypeSample) : Prop :=
  (out.uuid.valid = s.uuid.valid ∧ (s.uuid.valid = true → out.uuid = s.uuid)) ∧
  (out.i2.valid = s.i2.valid ∧ (s.i2.valid = true → out.i2 = s.i2)) ∧
  (out.i4.valid = s.i4.valid ∧ (s.i4.valid = true → out.i4 = s.i4)) ∧
  (out.i8.valid = s.i8.valid ∧ (s.i8.valid = true → out.i8 = s.i8)) ∧
  (out.flag.valid = s.flag.valid ∧ (s.flag.valid = true → out.flag = s.flag)) ∧
  (out.note.valid = s.note.valid ∧ (s.note.valid = true → out.note = s.note)) ∧
  (out.num.valid = s.num.valid ∧
    (s.num.valid = true → out.num.nan = s.num.nan) ∧
    (s.num.valid = true → s.num.nan = false →
      out.num.int = roundCents s.num.int s.num.exp ∧ out.num.exp = -2) ∧
    (s.num.valid = true → s.num.nan = false → s.num.exp = -2 → out.num = s.num)) ∧
  (out.ts.valid = s.ts.valid ∧
    (s.ts.valid = true → out.ts.time = s.ts.time.ediv 1000 * 1000) ∧
    (s.ts.valid = true → s.ts.time.emod 1000 = 0 → out.ts = s.ts))

/-! ### Postgres error inspection (DemoPgErrorHandling) -/

/-- A Go error value as this repository distinguishes them: either a
`*pgconn.PgError` (carrying the server error code, e.g. 23505
unique_violation) somewhere in its unwrap chain, or any other error.
`errors.As(err, &pge)` succeeds exactly on the first form. -/
inductive GoError where
  | pg (code : String) (message : String)
  | other (message : String)
deriving DecidableEq, Repr

/-- Outcome of the deliberate duplicate insert
`INSERT INTO app_users(email, name) VALUES ($1, ...)` (no ON CONFLICT):
if a row with the email exists the server raises unique_violation 23505 on
the `app_users_email_key` constraint and the state is unchanged; otherwise
a new row is inserted.  `net` injects a non-Postgres failure (e.g. a broken
connection), in which case the statement fails with that error. -/
def execInsertDupe (net : Option String) (email : String) (db : DB) :
    Option GoError × DB :=
  match net with
  | some m => (some (.other m), db)
  | none =>
    match db.users.find? (fun u => u.email == email) with
    | some _ => (some (.pg "23505" "duplicate key value violates unique constraint"), db)
    | none =>
      ((none : Option GoError),
       { db with
         users := db.users ++
           [newUser db.nextUserId email "Dupe" { string := "", valid := false }]
         nextUserId := db.nextUserId + 1 })

/-- The error handling of `DemoPgErrorHandling` after the Exec: a nil error
returns nil; an error matched by `errors.As` to `*pgconn.PgError` is logged
and nil is returned; only an error that is not a PgError is returned to the
caller. -/
def handlePgDemoError (err : Option GoError) : Option GoError :=
  match err with
  | none => none
  | some (.pg _ _) => none
  | some e => some e

/-- `DemoPgErrorHandling`: run the duplicate insert, then apply the
PgError inspection to its error. -/
def demoPgErrorHandling (net : Option String) (email : String) (db : DB) :
    Option GoError × DB :=
  let r := execInsertDupe net email db
  (handlePgDemoError r.1, r.2)

/-! ### Concrete fixture states used to instantiate the theorems -/

/-- The user row the demonstration program creates first. -/
def aliceRow : UserRow :=
  { id := 1, email := "alice@example.com", name := "Alice",
    middleName := { string := "", valid := false },
    lastLogin := { time := 0, valid := false }, isActive := true }

/-- An empty freshly-bootstrapped database. -/
def dbEmpty : DB :=
  { users := [], nextUserId := 1, accounts := [], typeSamples := [],
    nextSampleId := 1, now := 100 }

/-- A database holding just Alice and no accounts. -/
def dbAlice : DB :=
  { users := [aliceRow], nextUserId := 2, accounts := [], typeSamples := [],
    nextSampleId := 1, now := 100 }

/-- `dbAlice` after Alice's account was created. -/
def dbAliceAcct : DB :=
  { dbAlice with accounts := [(1, numericZero)] }

/-- A type sample whose numeric payload 0.123 needs more scale than the
`NUMERIC(12,2)` column offers; every other field NULL. -/
def sampleFrac : TypeSample :=
  { uuid := { bytes := 0, valid := false }, i2 := { int16 := 0, valid := false },
    i4 := { int32 := 0, valid := false }, i8 := { int64 := 0, valid := false },
    flag := { bool := false, valid := false }, note := { string := "", valid := false },
    num := { int := 123, exp := -3, nan := false, valid := true },
    ts := { time := 0, valid := false } }

/-- A type sample with every field set: the numeric payload 2.99 is
already at the column's scale, the timestamp has a sub-microsecond
part. -/
def sampleFull : TypeSample :=
  { uuid := { bytes := 7, valid := true }, i2 := { int16 := 3, valid := true },
    i4 := { int32 := 42, valid := true }, i8 := { int64 := 9, valid := true },
    flag := { bool := true, valid := true }, note := { string := "hi", valid := true },
    num := { int := 299, exp := -2, nan := false, valid := true },
    ts := { time := 1700000000123456789, valid := true } }

/-! ### C10 — acquire/release hooks are constant true -/

/-- C10: the `BeforeAcquire` hook installed by `BuildPool` returns true for
every context and connection, and the `AfterRelease` hook returns true for
every connection, so the hooks never reject a connection before acquire and
never cause a connection to be closed on release. -/
theorem hooks_constant_true :
    (∀ ok cfg, (buildPoolConfig ok cfg).beforeAcquireHook = some beforeAcquire ∧
      (buildPoolConfig ok cfg).afterReleaseHook = some afterRelease) ∧
    (∀ ctx c, beforeAcquire ctx c = true) ∧ (∀ c, afterRelease c = true) :=
  ⟨fun _ _ => ⟨rfl, rfl⟩, fun _ _ => rfl, fun _ => rfl⟩

/-! ### C7 — BuildPool supplies exactly the named configuration values -/

/-- C7: for every configuration produced by `ParseConfig` (and every
library-call oracle for the installed hook), the configuration `BuildPool`
hands to the library has MaxConns = 10, MinConns = 2, MaxConnLifetime = 30
minutes, MaxConnIdleTime = 5 minutes, HealthCheckPeriod = 1 minute, and all
three hooks (AfterConnect, BeforeAcquire, AfterRelease) set, overriding
whatever the DSN supplied. -/
theorem buildPool_config_values (ok : Nat → Bool) (cfg : PoolConfig) :
    (buildPoolConfig ok cfg).maxConns = 10 ∧
    (buildPoolConfig ok cfg).minConns = 2 ∧
    (buildPoolConfig ok cfg).maxConnLifetime = 30 * goMinute ∧
    (buildPoolConfig ok cfg).maxConnIdleTime = 5 * goMinute ∧
    (buildPoolConfig ok cfg).healthCheckPeriod = goMinute ∧
    (buildPoolConfig ok cfg).afterConnectHook.isSome = true ∧
    (buildPoolConfig ok cfg).beforeAcquireHook.isSome = true ∧
    (buildPoolConfig ok cfg).afterReleaseHook.isSome = true ∧
    buildPool ok (.ok cfg) = .ok (buildPoolConfig ok cfg) :=
  ⟨rfl, rfl, rfl, rfl, rfl, rfl, rfl, rfl, rfl⟩

/-! ### C1 — DemoPgErrorHandling swallows the PgError it matches -/

/-- C1 counterexample: with Alice already present, the deliberate duplicate
INSERT fails with the Postgres unique-violation error 23505, `errors.As`
matches it as a `*pgconn.PgError` — and `DemoPgErrorHandling` returns nil,
i.e. the database error was discarded, not propagated upward. -/
theorem demoPgErrorHandling_swallows_pg_error :
    (execInsertDupe none "alice@example.com" dbAlice).1 =
      some (.pg "23505" "duplicate key value violates unique constraint") ∧
    (demoPgErrorHandling none "alice@example.com" dbAlice).1 = none := by
  constructor <;> rfl

/-- C1 amended: `DemoPgErrorHandling` propagates upward only errors that do
not match `*pgconn.PgError`; an error the type-checked unwrapping matches
as a PgError is logged and nil is returned, and a successful INSERT also
returns nil. -/
theorem demoPgErrorHandling_propagates_only_non_pg
    (net : Option String) (email : String) (db : DB) :
    ((execInsertDupe net email db).1 = none →
      (demoPgErrorHandling net email db).1 = none) ∧
    (∀ c m, (execInsertDupe net email db).1 = some (.pg c m) →
      (demoPgErrorHandling net email db).1 = none) ∧
    (∀ m, (execInsertDupe net email db).1 = some (.other m) →
      (demoPgErrorHandling net email db).1 = some (.other m)) ∧
    (demoPgErrorHandling net email db).2 = (execInsertDupe net email db).2 := by
  refine ⟨?_, ?_, ?_, rfl⟩
  · intro h
    simp [demoPgErrorHandling, h, handlePgDemoError]
  · intro c m h
    simp [demoPgErrorHandling, h, handlePgDemoError]
  · intro m h
    simp [demoPgErrorHandling, h, handlePgDemoError]

/-- C1 amended witness: a broken-connection error (not a PgError) on the
duplicate INSERT is returned to the caller. -/
theorem demoPgErrorHandling_propagates_only_non_pg_witness :
    (demoPgErrorHandling (some "connection reset") "alice@example.com" dbAlice).1 =
      some (.other "connection reset") :=
  (demoPgErrorHandling_propagates_only_non_pg (some "connection reset")
    "alice@example.com" dbAlice).2.2.1 "connection reset" rfl

/-! ### C3 — schema creation: table counts and idempotence -/

theorem mem_createTableIfNotExists_self (n : String) (st : List String) :
    n ∈ createTableIfNotExists n st := by
  unfold createTableIfNotExists
  split
  · assumption
  · simp

theorem mem_createTableIfNotExists_of_mem {m : String} (n : String)
    (st : List String) (h : m ∈ st) : m ∈ createTableIfNotExists n st := by
  unfold createTableIfNotExists
  split
  · exact h
  · simp [h]

theorem mem_runDDL_of_mem {m : String} (ddl : List String) :
    ∀ st : List String, m ∈ st → m ∈ runDDL ddl st := by
  induction ddl with
  | nil => intro st h; exact h
  | cons a l ih =>
    intro st h
    exact ih _ (mem_createTableIfNotExists_of_mem a st h)

theorem mem_runDDL_of_mem_ddl {m : String} (ddl : List String) :
    ∀ st : List String, m ∈ ddl → m ∈ runDDL ddl st := by
  induction ddl with
  | nil => intro st h; cases h
  | cons a l ih =>
    intro st h
    rcases List.mem_cons.mp h with rfl | h2
    · exact mem_runDDL_of_mem l _ (mem_createTableIfNotExists_self m st)
    · exact ih _ h2

theorem runDDL_eq_of_all_mem (ddl : List String) :
    ∀ st : List String, (∀ n ∈ ddl, n ∈ st) → runDDL ddl st = st := by
  induction ddl with
  | nil => intro st _; rfl
  | cons a l ih =>
    intro st h
    have ha : a ∈ st := h a (List.mem_cons_self a l)
    have hc : createTableIfNotExists a st = st := by
      unfold createTableIfNotExists
      simp [ha]
    show runDDL l (createTableIfNotExists a st) = st
    rw [hc]
    exact ih st (fun n hn => h n (List.mem_cons_of_mem a hn))

theorem runDDL_idem (ddl st : List String) :
    runDDL ddl (runDDL ddl st) = runDDL ddl st :=
  runDDL_eq_of_all_mem ddl _ (fun _ hn => mem_runDDL_of_mem_ddl ddl st hn)

/-- C3 counterexample: the `pgx_demo/pgx_demo.go` variant of the startup
schema functions creates exactly the two tables `app_users` and `accounts`
— `type_samples` is not among the tables either of them creates — so "the
startup schema functions create exactly three tables" is false for that
cited variant. -/
theorem ensureSchemaV2_creates_two_tables :
    ensureSchemaV2 [] = ["app_users", "accounts"] ∧
    bootstrapEnsureSchemaV2 [] = ["app_users", "accounts"] ∧
    "type_samples" ∉ ensureSchemaV2 [] ∧
    "type_samples" ∉ bootstrapEnsureSchemaV2 [] := by
  refine ⟨rfl, rfl, ?_, ?_⟩ <;> decide

/-- C3 amended: the unnamed source file's `BootstrapEnsureSchema` and
`EnsureSchema` create exactly the three tables app_users, accounts,
type_samples; the `pgx_demo/pgx_demo.go` variants create exactly the two
tables app_users and accounts; and all four functions are idempotent — a
second run on any database state leaves it unchanged. -/
theorem schema_functions_tables_and_idempotent :
    bootstrapEnsureSchema [] = ["app_users", "accounts", "type_samples"] ∧
    ensureSchema [] = ["app_users", "accounts", "type_samples"] ∧
    bootstrapEnsureSchemaV2 [] = ["app_users", "accounts"] ∧
    ensureSchemaV2 [] = ["app_users", "accounts"] ∧
    (∀ st, bootstrapEnsureSchema (bootstrapEnsureSchema st) = bootstrapEnsureSchema st) ∧
    (∀ st, ensureSchema (ensureSchema st) = ensureSchema st) ∧
    (∀ st, bootstrapEnsureSchemaV2 (bootstrapEnsureSchemaV2 st) = bootstrapEnsureSchemaV2 st) ∧
    (∀ st, ensureSchemaV2 (ensureSchemaV2 st) = ensureSchemaV2 st) :=
  ⟨rfl, rfl, rfl, rfl,
   fun st => runDDL_idem bootstrapDDLTables st,
   fun st => runDDL_idem ensureSchemaDDLTables st,
   fun st => runDDL_idem bootstrapDDLTablesV2 st,
   fun st => runDDL_idem ensureSchemaDDLTablesV2 st⟩

/-! ### C2 — EnsureAccount: lazy creation and idempotence -/

/-- C2 counterexample: for user id 99, which has no `app_users` row, the
first `EnsureAccount` call does not insert an account row with balance 0 —
the INSERT violates the foreign key `accounts.user_id REFERENCES
app_users(id)`, returns an error, and leaves the state unchanged — so "for
every user id, the first call inserts an account row with balance 0" is
false. -/
theorem ensureAccount_fails_for_missing_user :
    (ensureAccount 99 dbAlice).1 =
      .error "foreign key violation on accounts.user_id" ∧
    (ensureAccount 99 dbAlice).2 = dbAlice ∧
    (ensureAccount 99 dbAlice).2.accounts = [] := by
  refine ⟨?_, ?_, ?_⟩ <;> rfl

/-- C2 amended: `EnsureAccount` is idempotent and lazily creating: for
every user id that has an `app_users` row, the first call inserts an
account row with balance 0 for that user; any call finding an existing
account row leaves it (including its balance) unchanged; and for every
user id whatsoever, `EnsureAccount` followed by `EnsureAccount` has the
same result and effect on the database state as a single `EnsureAccount`. -/
theorem ensureAccount_lazy_and_idempotent (uid : Int) (db : DB) :
    ((ensureAccount uid ((ensureAccount uid db).2)).2 = (ensureAccount uid db).2 ∧
     (ensureAccount uid ((ensureAccount uid db).2)).1 = (ensureAccount uid db).1) ∧
    (db.accounts.find? (fun a => a.1 == uid) = none →
      (db.users.find? (fun u => u.id == uid)).isSome = true →
      (ensureAccount uid db).1 = .ok () ∧
      (ensureAccount uid db).2 =
        { db with accounts := db.accounts ++ [(uid, numericZero)] }) ∧
    (∀ p, db.accounts.find? (fun a => a.1 == uid) = some p →
      (ensureAccount uid db).1 = .ok () ∧ (ensureAccount uid db).2 = db) := by
  refine ⟨?_, ?_, ?_⟩
  · cases hfind : db.accounts.find? (fun a => a.1 == uid) with
    | some p =>
      constructor <;> simp [ensureAccount, hfind]
    | none =>
      cases huser : (db.users.find? (fun u => u.id == uid)).isSome with
      | false =>
        have h1 : ensureAccount uid db = (.error "foreign key violation on accounts.user_id", db) := by
          simp [ensureAccount, hfind, huser]
        constructor <;> simp [h1, ensureAccount, hfind, huser]
      | true =>
        have h1 : ensureAccount uid db =
            (.ok (), { db with accounts := db.accounts ++ [(uid, numericZero)] }) := by
          simp [ensureAccount, hfind, huser]
        have hfind2 : (db.accounts ++ [(uid, numericZero)]).find? (fun a => a.1 == uid) =
            some (uid, numericZero) := by
          rw [List.find?_append, hfind]
          simp
        constructor <;>
          · rw [h1]
            simp [ensureAccount, hfind2]
  · intro hfind huser
    constructor <;> simp [ensureAccount, hfind, huser]
  · intro p hfind
    constructor <;> simp [ensureAccount, hfind]

/-- C2 amended witness: for Alice (user id 1) the first call creates the
balance-0 account row, the second call leaves the state unchanged. -/
theorem ensureAccount_lazy_and_idempotent_witness :
    ((ensureAccount 1 dbAlice).1 = .ok () ∧
      (ensureAccount 1 dbAlice).2 =
        { dbAlice with accounts := dbAlice.accounts ++ [(1, numericZero)] }) ∧
    (ensureAccount 1 ((ensureAccount 1 dbAlice).2)).2 = (ensureAccount 1 dbAlice).2 :=
  ⟨(ensureAccount_lazy_and_idempotent 1 dbAlice).2.1 rfl rfl,
   (ensureAccount_lazy_and_idempotent 1 dbAlice).1.1⟩

/-! ### C9 — GetBalance never returns a NULL balance with a nil error -/

/-- C9: for every user id and database state, `GetBalance` either returns
an error (missing row, or a scanned balance with Valid = false) together
with the zero `pgtype.Numeric{}`, or returns no error and a Numeric with
Valid = true; a nil-error result never carries an invalid Numeric. -/
theorem getBalance_never_null (uid : Int) (db : DB) :
    (∀ e, (getBalance uid db).2 = some e → (getBalance uid db).1 = numericGoZero) ∧
    ((getBalance uid db).2 = none → (getBalance uid db).1.valid = true) := by
  cases hfind : db.accounts.find? (fun a => a.1 == uid) with
  | none =>
    constructor
    · intro e _
      simp [getBalance, hfind]
    · intro h
      simp [getBalance, hfind] at h
  | some a =>
    cases hv : a.2.valid with
    | false =>
      constructor
      · intro e _
        simp [getBalance, hfind, hv]
      · intro h
        simp [getBalance, hfind, hv] at h
    | true =>
      constructor
      · intro e he
        simp [getBalance, hfind, hv] at he
      · intro _
        simp [getBalance, hfind, hv]

/-- C9 witness: with no account row the error comes with the zero Numeric;
with Alice's account present the nil-error result is Valid. -/
theorem getBalance_never_null_witness :
    (getBalance 1 dbAlice).1 = numericGoZero ∧
    (getBalance 1 dbAliceAcct).1.valid = true :=
  ⟨(getBalance_never_null 1 dbAlice).1 "no rows in result set" rfl,
   (getBalance_never_null 1 dbAliceAcct).2 rfl⟩

/-! ### C6 — UpsertUserAndLogLogin is atomic -/

/-- C6: whatever library calls fail, if `UpsertUserAndLogLogin` returns an
error (from Begin, the upsert, the last_login update, or Commit) the
database state is unchanged — never a state with the row upserted but
last_login not set — and if it returns without error the upsert and the
last_login update both took effect and the returned id is the upserted
row's id. -/
theorem upsertUserAndLogLogin_atomic (fail : TxStep → Bool) (email name : String)
    (mid : Option String) (db : DB) :
    (∀ e, (upsertUserAndLogLogin fail email name mid db).1 = .error e →
      (upsertUserAndLogLogin fail email name mid db).2 = db) ∧
    (∀ uid, (upsertUserAndLogLogin fail email name mid db).1 = .ok uid →
      uid = (insertUserUpsert email name (encodeMiddle mid) db).1 ∧
      (upsertUserAndLogLogin fail email name mid db).2 =
        setLastLogin (insertUserUpsert email name (encodeMiddle mid) db).1
          ((insertUserUpsert email name (encodeMiddle mid) db).2)) := by
  cases hb : fail .begin <;> cases hu : fail .upsert <;>
    cases hs : fail .setLogin <;> cases hc : fail .commit <;>
      constructor <;>
        · intro x hx
          simp [upsertUserAndLogLogin, hb, hu, hs, hc] at hx ⊢
          try simp [hx]

/-- C6 witness: with no library failure, starting from the empty database,
the call returns id 1 and the final state is exactly the upsert followed by
the last_login update. -/
theorem upsertUserAndLogLogin_atomic_witness :
    1 = (insertUserUpsert "alice@example.com" "Alice" (encodeMiddle none) dbEmpty).1 ∧
    (upsertUserAndLogLogin (fun _ => false) "alice@example.com" "Alice" none dbEmpty).2 =
      setLastLogin (insertUserUpsert "alice@example.com" "Alice" (encodeMiddle none) dbEmpty).1
        ((insertUserUpsert "alice@example.com" "Alice" (encodeMiddle none) dbEmpty).2) :=
  (upsertUserAndLogLogin_atomic (fun _ => false) "alice@example.com" "Alice" none dbEmpty).2
    1 rfl

/-! ### C4 — type sample insert/read round trip -/

theorem decodeSample_encodeSample_roundTripEquiv (s : TypeSample) :
    roundTripEquiv s (decodeSample (encodeSample s)) := by
  obtain ⟨⟨a1, v1⟩, ⟨a2, v2⟩, ⟨a3, v3⟩, ⟨a4, v4⟩, ⟨a5, v5⟩, ⟨a6, v6⟩,
    ⟨m, e, nn, v7⟩, ⟨a8, v8⟩⟩ := s
  unfold roundTripEquiv
  refine ⟨?_, ?_, ?_, ?_, ?_, ?_, ?_, ?_⟩
  · cases v1 <;> simp [encodeSample, decodeSample]
  · cases v2 <;> simp [encodeSample, decodeSample]
  · cases v3 <;> simp [encodeSample, decodeSample]
  · cases v4 <;> simp [encodeSample, decodeSample]
  · cases v5 <;> simp [encodeSample, decodeSample]
  · cases v6 <;> simp [encodeSample, decodeSample]
  · cases v7 with
    | false => simp [encodeSample, decodeSample]
    | true =>
      cases nn with
      | true => simp [encodeSample, decodeSample]
      | false =>
        refine ⟨by simp [encodeSample, decodeSample], by simp [encodeSample, decodeSample],
          fun _ _ => by simp [encodeSample, decodeSample], ?_⟩
        intro _ _ he
        simp only at he
        subst he
        simp [encodeSample, decodeSample, roundCents]
  · cases v8 with
    | false => simp [encodeSample, decodeSample]
    | true =>
      refine ⟨by simp [encodeSample, decodeSample], by simp [encodeSample, decodeSample], ?_⟩
      intro _ hm
      simp only at hm
      simp [encodeSample, decodeSample]
      exact Int.ediv_mul_cancel (Int.dvd_of_emod_eq_zero hm)

/-- C4 counterexample: the payload `pgtype.Numeric{Int: 123, Exp: -3}`
(value 0.123) inserts without error, but the `NUMERIC(12,2)` column
rounds it to 0.12, so `GetTypeSample` returns a num field that is valid
yet does not carry the same scalar value — refuting the exact round trip
for every scalar value. -/
theorem insertTypeSample_exact_roundtrip_fails :
    insertTypeSample sampleFrac dbEmpty =
      .ok (1, { dbEmpty with typeSamples := [(1, encodeSample sampleFrac)], nextSampleId := 2 }) ∧
    getTypeSample 1 { dbEmpty with typeSamples := [(1, encodeSample sampleFrac)], nextSampleId := 2 } =
      .ok (decodeSample (encodeSample sampleFrac)) ∧
    (decodeSample (encodeSample sampleFrac)).num.valid = true ∧
    sampleFrac.num.valid = true ∧
    (decodeSample (encodeSample sampleFrac)).num ≠ sampleFrac.num ∧
    (decodeSample (encodeSample sampleFrac)).num.int = 12 ∧
    (decodeSample (encodeSample sampleFrac)).num.exp = -2 ∧
    sampleFrac.num.int = 123 ∧
    sampleFrac.num.exp = -3 := by
  refine ⟨rfl, rfl, rfl, rfl, ?_, rfl, rfl, rfl, rfl⟩
  decide

/-- C4 amended: for every `TypeSample` value `s` and database state whose
serial counter is fresh, if `InsertTypeSample` returns an id without
error, `GetTypeSample` under that id returns a sample that matches `s` up
to the declared column precision: all eight Valid flags round-trip, the
uuid/i2/i4/i8/flag/note payloads round-trip exactly, the num payload is
read back (at exponent −2, NaN preserved) as the written value rounded to
the column's two decimal places — verbatim if written at exponent −2 —
and the ts payload is truncated to the column's microsecond precision —
verbatim if it had no sub-microsecond part. -/
theorem insertTypeSample_roundtrip_upto_column_precision (s : TypeSample) (db : DB)
    (h : ∀ r ∈ db.typeSamples, r.1 ≠ db.nextSampleId)
    (id : Int) (db2 : DB) (hok : insertTypeSample s db = .ok (id, db2)) :
    getTypeSample id db2 = .ok (decodeSample (encodeSample s)) ∧
    roundTripEquiv s (decodeSample (encodeSample s)) := by
  refine ⟨?_, decodeSample_encodeSample_roundTripEquiv s⟩
  cases hov : numericFieldOverflow s.num with
  | true => simp [insertTypeSample, hov] at hok
  | false =>
    simp only [insertTypeSample, hov, Bool.false_eq_true, if_false, Except.ok.injEq,
      Prod.mk.injEq] at hok
    obtain ⟨hid, hdb⟩ := hok
    subst hid
    subst hdb
    have hnone : db.typeSamples.find? (fun r => r.1 == db.nextSampleId) = none := by
      apply List.find?_eq_none.mpr
      intro x hx
      simpa using h x hx
    simp [getTypeSample, List.find?_append, hnone]

/-- C4 witness: a sample with every field set — num written at the
column's scale and a timestamp with a sub-microsecond part — inserts into
an otherwise empty `type_samples` table and reads back as the theorem
states. -/
theorem insertTypeSample_roundtrip_upto_column_precision_witness :
    getTypeSample 1 { dbAlice with typeSamples := [(1, encodeSample sampleFull)], nextSampleId := 2 } =
      .ok (decodeSample (encodeSample sampleFull)) ∧
    roundTripEquiv sampleFull (decodeSample (encodeSample sampleFull)) :=
  insertTypeSample_roundtrip_upto_column_precision sampleFull dbAlice (by simp [dbAlice])
    1 { dbAlice with typeSamples := [(1, encodeSample sampleFull)], nextSampleId := 2 } rfl

/-! ### C5 — email is a unique key under UpsertUserAndLogLogin -/

/-- At most one `app_users` row per email. -/
def UniqueEmails (users : List UserRow) : Prop :=
  users.Pairwise (fun a b => a.email ≠ b.email)

/-- One `UpsertUserAndLogLogin` call: its failure oracle and arguments. -/
structure UpsertCall where
  fail : TxStep → Bool
  email : String
  name : String
  middleName : Option String

/-- Run a sequence of `UpsertUserAndLogLogin` calls, threading the state. -/
def applyCalls (calls : List UpsertCall) (db : DB) : DB :=
  calls.foldl
    (fun st cl => (upsertUserAndLogLogin cl.fail cl.email cl.name cl.middleName st).2) db

theorem email_updName (email name : String) (v : UserRow) :
    (if v.email == email then { v with name := name } else v).email = v.email := by
  split <;> rfl

theorem email_updLogin (uid : Int) (t : PgTimestamp) (v : UserRow) :
    (if v.id == uid then { v with lastLogin := t } else v).email = v.email := by
  split <;> rfl

theorem insertUserUpsert_uniqueEmails (email name : String) (mid : PgText) (db : DB)
    (h : UniqueEmails db.users) :
    UniqueEmails (insertUserUpsert email name mid db).2.users := by
  cases hfind : db.users.find? (fun u => u.email == email) with
  | some u =>
    have husers : (insertUserUpsert email name mid db).2.users =
        db.users.map (fun v => if v.email == email then { v with name := name } else v) := by
      simp [insertUserUpsert, hfind]
    rw [husers]
    exact List.pairwise_map.mpr
      (h.imp (fun hab => by simp only [email_updName]; exact hab))
  | none =>
    have husers : (insertUserUpsert email name mid db).2.users =
        db.users ++ [newUser db.nextUserId email name mid] := by
      simp [insertUserUpsert, hfind]
    rw [husers]
    refine List.pairwise_append.mpr ⟨h, by simp, ?_⟩
    intro a ha b hb
    simp only [List.mem_singleton] at hb
    subst hb
    have hne := List.find?_eq_none.mp hfind a ha
    simp only [newUser]
    simpa using hne

theorem setLastLogin_uniqueEmails (uid : Int) (db : DB) (h : UniqueEmails db.users) :
    UniqueEmails (setLastLogin uid db).users :=
  List.pairwise_map.mpr (h.imp (fun hab => by simp only [email_updLogin]; exact hab))

theorem upsertUserAndLogLogin_uniqueEmails (fail : TxStep → Bool) (email name : String)
    (mid : Option String) (db : DB) (h : UniqueEmails db.users) :
    UniqueEmails (upsertUserAndLogLogin fail email name mid db).2.users := by
  cases hb : fail .begin with
  | true => simpa [upsertUserAndLogLogin, hb] using h
  | false =>
    cases hu : fail .upsert with
    | true => simpa [upsertUserAndLogLogin, hb, hu] using h
    | false =>
      cases hs : fail .setLogin with
      | true => simpa [upsertUserAndLogLogin, hb, hu, hs] using h
      | false =>
        cases hc : fail .commit with
        | true => simpa [upsertUserAndLogLogin, hb, hu, hs, hc] using h
        | false =>
          have h2 := setLastLogin_uniqueEmails
            (insertUserUpsert email name (encodeMiddle mid) db).1
            (insertUserUpsert email name (encodeMiddle mid) db).2
            (insertUserUpsert_uniqueEmails email name (encodeMiddle mid) db h)
          simpa [upsertUserAndLogLogin, hb, hu, hs, hc] using h2

theorem applyCalls_uniqueEmails (calls : List UpsertCall) :
    ∀ db : DB, UniqueEmails db.users → UniqueEmails (applyCalls calls db).users := by
  induction calls with
  | nil => intro db h; exact h
  | cons cl cls ih =>
    intro db h
    exact ih _ (upsertUserAndLogLogin_uniqueEmails cl.fail cl.email cl.name cl.middleName db h)

theorem find?_email_map (email : String) (l : List UserRow) (f : UserRow → UserRow)
    (hf : ∀ v, (f v).email = v.email) :
    (l.map f).find? (fun u => u.email == email) =
      (l.find? (fun u => u.email == email)).map f := by
  rw [List.find?_map]
  have hfun : ((fun u : UserRow => u.email == email) ∘ f) =
      (fun u : UserRow => u.email == email) := by
    funext v
    simp [Function.comp, hf]
  rw [hfun]

/-- C5: email is a unique key of `app_users`: a state with at most one row
per email keeps that property across any sequence of
`UpsertUserAndLogLogin` calls; and a call whose email already has a row
does not create a second row (the row count is unchanged), returns the
existing row's id, and leaves that email's row with the new name and
last_login set to now(). -/
theorem email_unique_key (calls : List UpsertCall) (db : DB)
    (fail : TxStep → Bool) (email name : String) (mid : Option String) (r : UserRow) :
    (UniqueEmails db.users → UniqueEmails (applyCalls calls db).users) ∧
    (db.users.find? (fun u => u.email == email) = some r →
      ∀ uid, (upsertUserAndLogLogin fail email name mid db).1 = .ok uid →
        uid = r.id ∧
        (upsertUserAndLogLogin fail email name mid db).2.users.length = db.users.length ∧
        (upsertUserAndLogLogin fail email name mid db).2.users.find?
            (fun u => u.email == email) =
          some { r with name := name, lastLogin := { time := db.now, valid := true } }) := by
  constructor
  · exact fun h => applyCalls_uniqueEmails calls db h
  · intro hfind uid hok
    cases hb : fail .begin with
    | true => simp [upsertUserAndLogLogin, hb] at hok
    | false =>
    cases hu : fail .upsert with
    | true => simp [upsertUserAndLogLogin, hb, hu] at hok
    | false =>
    cases hs : fail .setLogin with
    | true => simp [upsertUserAndLogLogin, hb, hu, hs] at hok
    | false =>
    cases hc : fail .commit with
    | true => simp [upsertUserAndLogLogin, hb, hu, hs, hc] at hok
    | false =>
      have hins : insertUserUpsert email name (encodeMiddle mid) db =
          (r.id, { db with users := db.users.map (fun v => if v.email == email then { v with name := name } else v) }) := by
        simp [insertUserUpsert, hfind]
      have hres : upsertUserAndLogLogin fail email name mid db =
          (.ok r.id, setLastLogin r.id { db with users := db.users.map (fun v => if v.email == email then { v with name := name } else v) }) := by
        simp [upsertUserAndLogLogin, hb, hu, hs, hc, hins]
      rw [hres] at hok
      simp only [] at hok
      have huid : uid = r.id := by
        cases hok
        rfl
      subst huid
      refine ⟨rfl, ?_, ?_⟩
      · rw [hres]
        simp [setLastLogin]
      · rw [hres]
        have hr : r.email = email := by simpa using List.find?_some hfind
        simp only [setLastLogin]
        rw [find?_email_map email _ _ (fun v => email_updLogin _ _ v),
          find?_email_map email _ _ (fun v => email_updName _ _ v), hfind]
        simp [hr]

/-- C5 witness: re-upserting Alice's email with a new name keeps the email
unique, keeps one row, returns id 1, and updates name and last_login. -/
theorem email_unique_key_witness :
    UniqueEmails
      (applyCalls [⟨fun _ => false, "alice@example.com", "Alicia", none⟩] dbAlice).users ∧
    (1 = aliceRow.id ∧
     (upsertUserAndLogLogin (fun _ => false) "alice@example.com" "Alicia" none
        dbAlice).2.users.length = dbAlice.users.length ∧
     (upsertUserAndLogLogin (fun _ => false) "alice@example.com" "Alicia" none
        dbAlice).2.users.find? (fun u => u.email == "alice@example.com") =
       some { aliceRow with name := "Alicia", lastLogin := { time := dbAlice.now, valid := true } }) :=
  ⟨(email_unique_key [⟨fun _ => false, "alice@example.com", "Alicia", none⟩] dbAlice
      (fun _ => false) "alice@example.com" "Alicia" none aliceRow).1
      (by simp [UniqueEmails, dbAlice]),
   (email_unique_key [⟨fun _ => false, "alice@example.com", "Alicia", none⟩] dbAlice
      (fun _ => false) "alice@example.com" "Alicia" none aliceRow).2 rfl 1 rfl⟩

/-! ### C8 — AfterConnect prepares every named statement or errors -/

theorem prepareAll_of_all_ok (ok : Nat → Bool) (rest : List (String × String)) :
    ∀ (i : Nat) (c : ConnState), (∀ j, j < rest.length → ok (i + j) = true) →
      prepareAll ok i rest c = .ok { c with prepared := c.prepared ++ rest } := by
  induction rest with
  | nil => intro i c _; simp [prepareAll]
  | cons hd t ih =>
    intro i c hall
    obtain ⟨n, s⟩ := hd
    have h0 : ok i = true := by simpa using hall 0 (by simp)
    have ht : ∀ j, j < t.length → ok (i + 1 + j) = true := by
      intro j hj
      have he : i + 1 + j = i + (j + 1) := by omega
      rw [he]
      exact hall (j + 1) (by simpa using Nat.succ_lt_succ hj)
    have hrec := ih (i + 1) { c with prepared := c.prepared ++ [(n, s)] } ht
    simp only [prepareAll, h0, if_true]
    rw [hrec]
    simp

theorem prepareAll_ok_all (ok : Nat → Bool) (rest : List (String × String)) :
    ∀ (i : Nat) (c c' : ConnState), prepareAll ok i rest c = .ok c' →
      ∀ j, j < rest.length → ok (i + j) = true := by
  induction rest with
  | nil => intro i c c' _ j hj; simp at hj
  | cons hd t ih =>
    intro i c c' h j hj
    obtain ⟨n, s⟩ := hd
    cases h0 : ok i with
    | false => simp [prepareAll, h0] at h
    | true =>
      simp only [prepareAll, h0, if_true] at h
      cases j with
      | zero => simpa using h0
      | succ j' =>
        have hj' : j' < t.length := by
          simpa using Nat.lt_of_succ_lt_succ (by simpa using hj)
        have he : i + (j' + 1) = i + 1 + j' := by omega
        rw [he]
        exact ih (i + 1) _ c' h j' hj'

/-- Every invoked statement name is among the names `AfterConnect`
prepares. -/
theorem invoked_subset_prepared :
    ∀ n ∈ invokedStatementNames, n ∈ preparedStatements.map Prod.fst := by
  intro n hn
  fin_cases hn <;> decide

/-- C8: the `AfterConnect` hook installed by `BuildPool` either succeeds
and leaves the connection with all nine named prepared statements
registered — in particular every statement name the exported operations
invoke by name — or returns a non-nil error exactly when the initial Exec
or any of the nine preparations fails, so the library never admits into the
pool a connection on which preparation failed. -/
theorem afterConnect_prepares_all (ok : Nat → Bool) (c : ConnState) :
    (∀ c', afterConnect ok c = .ok c' →
      c'.prepared = c.prepared ++ preparedStatements ∧
      ∀ n ∈ invokedStatementNames, n ∈ c'.prepared.map Prod.fst) ∧
    ((∃ e, afterConnect ok c = .error e) ↔
      ¬ (ok 0 = true ∧ ∀ j, j < preparedStatements.length → ok (1 + j) = true)) := by
  have hmain : ∀ c', afterConnect ok c = .ok c' →
      c'.prepared = c.prepared ++ preparedStatements := by
    intro c' h
    cases h0 : ok 0 with
    | false => simp [afterConnect, h0] at h
    | true =>
      simp only [afterConnect, h0, if_true] at h
      have hall := prepareAll_ok_all ok preparedStatements 1 _ c' h
      have heq := prepareAll_of_all_ok ok preparedStatements 1
        { c with appName := some "pgxpool-demo" } hall
      rw [h] at heq
      have hc' : c' = { appName := some "pgxpool-demo", prepared := c.prepared ++ preparedStatements } := by
        simpa using heq
      rw [hc']
  constructor
  · intro c' h
    refine ⟨hmain c' h, ?_⟩
    intro n hn
    rw [hmain c' h, List.map_append]
    exact List.mem_append_right _ (invoked_subset_prepared n hn)
  · have hok_iff : (∃ c', afterConnect ok c = .ok c') ↔
        (ok 0 = true ∧ ∀ j, j < preparedStatements.length → ok (1 + j) = true) := by
      constructor
      · rintro ⟨c', h⟩
        cases h0 : ok 0 with
        | false => simp [afterConnect, h0] at h
        | true =>
          refine ⟨rfl, ?_⟩
          simp only [afterConnect, h0, if_true] at h
          exact prepareAll_ok_all ok preparedStatements 1 _ c' h
      · rintro ⟨h0, hall⟩
        refine ⟨{ appName := some "pgxpool-demo", prepared := c.prepared ++ preparedStatements }, ?_⟩
        simp only [afterConnect, h0, if_true]
        exact prepareAll_of_all_ok ok preparedStatements 1 _ hall
    rw [← hok_iff]
    cases h : afterConnect ok c with
    | ok c' => simp
    | error e => simp

/-- C8 witness: with every library call succeeding, `AfterConnect` on a
fresh connection registers exactly the nine prepared statements, covering
every name the exported operations invoke. -/
theorem afterConnect_prepares_all_witness :
    ({ appName := some "pgxpool-demo", prepared := preparedStatements } : ConnState).prepared =
      ({ appName := none, prepared := [] } : ConnState).prepared ++ preparedStatements ∧
    ∀ n ∈ invokedStatementNames,
      n ∈ ({ appName := some "pgxpool-demo", prepared := preparedStatements } : ConnState).prepared.map Prod.fst :=
  (afterConnect_prepares_all (fun _ => true) { appName := none, prepared := [] }).1
    { appName := some "pgxpool-demo", prepared := preparedStatements } rfl

end PgxDemo
